import Mathlib

/-!
Verification development for the `drawr` rendering pipeline core:
a shallow embedding of its CSS data model (`css.rs`), DOM (`dom.rs`),
style resolution (`style.rs`) and block layout engine (`layout.rs`),
followed by theorems about the embedded functions.

`f32` quantities are modelled as rationals (`ℚ`); the arithmetic the
theorems test (addition, subtraction, halving of small integral pixel
values) is exact in both representations.  Rust's `fail!` panics are
modelled with `Except String`.
-/

namespace Drawr

/-! ### css.rs -/

/-- The only length unit (`Unit` in `css.rs`, renamed to avoid clashing
with Lean's `Unit`). -/
inductive CssUnit where
  | Px
  deriving DecidableEq

/-- `Value` from `css.rs`. -/
inductive Value where
  | Keyword (s : String)
  | Color (r g b a : Nat)
  | Length (f : ℚ) (u : CssUnit)
  deriving DecidableEq

/-- `Value::to_px`: the size of a length in px, or zero for non-lengths. -/
def Value.to_px : Value → ℚ
  | .Length f .Px => f
  | .Keyword _ => 0
  | .Color _ _ _ _ => 0

/-- `SimpleSelector` from `css.rs` (`class` is a Lean keyword, hence `class'`). -/
structure SimpleSelector where
  tag_name : Option String
  id : Option String
  class' : List String
  deriving DecidableEq

/-- `Selector` from `css.rs`. -/
inductive Selector where
  | Simple (s : SimpleSelector)
  deriving DecidableEq

/-- `Declaration` from `css.rs`. -/
structure Declaration where
  name : String
  value : Value
  deriving DecidableEq

/-- `Rule` from `css.rs`. -/
structure Rule where
  selectors : List Selector
  declarations : List Declaration
  deriving DecidableEq

/-- `Stylesheet` from `css.rs`. -/
structure Stylesheet where
  rules : List Rule
  deriving DecidableEq

/-- `Specificity` from `css.rs` (a `(uint, uint, uint)` triple). -/
abbrev Specificity := Nat × Nat × Nat

/-- `Selector::specificity`: `Option::iter().len()` is 1 for `Some` and 0
for `None`, which `Option.toList.length` reproduces. -/
def Selector.specificity : Selector → Specificity
  | .Simple simple =>
    (simple.id.toList.length, simple.class'.length, simple.tag_name.toList.length)

/-! ### dom.rs -/

/-- `AttrMap`: a string-keyed map with unique keys, modelled as an
association list queried with `List.lookup`. -/
abbrev AttrMap := List (String × String)

/-- `ElementData` from `dom.rs`. -/
structure ElementData where
  tag_name : String
  attributes : AttrMap
  deriving DecidableEq

/-- `NodeType` from `dom.rs`. -/
inductive NodeType where
  | Text (s : String)
  | Element (e : ElementData)
  deriving DecidableEq

/-- `Node` from `dom.rs`. -/
inductive Node where
  | mk (children : List Node) (node_type : NodeType)

/-- The `children` field of a DOM node. -/
def Node.children : Node → List Node
  | .mk c _ => c

/-- The `node_type` field of a DOM node. -/
def Node.node_type : Node → NodeType
  | .mk _ t => t

/-- `ElementData::get_attribute`. -/
def ElementData.get_attribute (e : ElementData) (key : String) : Option String :=
  e.attributes.lookup key

/-- `ElementData::id`. -/
def ElementData.id (e : ElementData) : Option String :=
  e.get_attribute "id"

/-- `ElementData::classes`: the whitespace-split `class` attribute.  Rust
collects the pieces of `split(' ')` into a `HashSet<&str>` which is only
ever queried with `contains`; a list with `List.contains` has the same
observable behaviour. -/
def ElementData.classes (e : ElementData) : List String :=
  match e.get_attribute "class" with
  | some classlist => classlist.splitOn " "
  | none => []

/-! ### style.rs -/

/-- `PropertyMap`: a `HashMap<String, Value>` is only built with `insert`
(last insert for a key wins) and queried with `find`; a function
`String → Option Value` has exactly those observations. -/
def PropertyMap := String → Option Value

/-- The empty property map (`HashMap::new`). -/
def PropertyMap.empty : PropertyMap := fun _ => none

/-- `HashMap::insert`: the new binding shadows any previous one. -/
def PropertyMap.insert (m : PropertyMap) (k : String) (v : Value) : PropertyMap :=
  fun n => if n = k then some v else m n

/-- `HashMap::find` / `find_equiv`. -/
def PropertyMap.find (m : PropertyMap) (k : String) : Option Value := m k

/-- `StyledNode` from `style.rs`. -/
inductive StyledNode where
  | mk (node : Node) (specified_values : PropertyMap) (children : List StyledNode)

/-- The DOM node a styled node points at. -/
def StyledNode.node : StyledNode → Node
  | .mk n _ _ => n

/-- The resolved property map of a styled node. -/
def StyledNode.specified_values : StyledNode → PropertyMap
  | .mk _ m _ => m

/-- The styled children of a styled node. -/
def StyledNode.children : StyledNode → List StyledNode
  | .mk _ _ c => c

/-- `Display` from `style.rs`. -/
inductive Display where
  | Inline
  | Block
  | DisplayNone
  deriving DecidableEq

/-- `StyledNode::value`. -/
def StyledNode.value (sn : StyledNode) (name : String) : Option Value :=
  sn.specified_values.find name

/-- `StyledNode::lookup`: value at `name`, else at `fallback_name`, else
`default`. -/
def StyledNode.lookup (sn : StyledNode) (name fallback_name : String)
    (default : Value) : Value :=
  (sn.value name).getD ((sn.value fallback_name).getD default)

/-- `StyledNode::display`. -/
def StyledNode.display (sn : StyledNode) : Display :=
  match sn.value "display" with
  | some (.Keyword s) =>
    if s = "block" then .Block
    else if s = "none" then .DisplayNone
    else .Inline
  | _ => .Inline

/-- `matches_simple_selector` from `style.rs`. -/
def matches_simple_selector (elem : ElementData) (selector : SimpleSelector) : Bool :=
  if selector.tag_name.any fun name => elem.tag_name != name then false
  else if selector.id.any fun i => elem.id != some i then false
  else if selector.class'.any fun c => !(elem.classes.contains c) then false
  else true

/-- `matches` from `style.rs`. -/
def matches' (elem : ElementData) (selector : Selector) : Bool :=
  match selector with
  | .Simple simple_selector => matches_simple_selector elem simple_selector

/-- `MatchedRule`: a `(Specificity, &Rule)` pair. -/
abbrev MatchedRule := Specificity × Rule

/-- `match_rule`: the first matching selector of the rule, if any, paired
with its specificity. -/
def match_rule (elem : ElementData) (rule : Rule) : Option MatchedRule :=
  (rule.selectors.find? fun selector => matches' elem selector).map
    fun selector => (selector.specificity, rule)

/-- `matching_rules`: all rules of the stylesheet that match, in stylesheet
order. -/
def matching_rules (elem : ElementData) (stylesheet : Stylesheet) : List MatchedRule :=
  stylesheet.rules.filterMap fun rule => match_rule elem rule

/-- Lexicographic `≤` on specificity triples: Rust's derived `Ord` for
`(uint, uint, uint)`. -/
def Specificity.lexLe (a b : Specificity) : Prop :=
  a.1 < b.1 ∨ (a.1 = b.1 ∧ (a.2.1 < b.2.1 ∨ (a.2.1 = b.2.1 ∧ a.2.2 ≤ b.2.2)))

instance : DecidableRel Specificity.lexLe := fun a b => by
  unfold Specificity.lexLe; infer_instance

/-- The comparator of `specified_values`' `rules.sort_by`. -/
def matchedRuleLe (a b : MatchedRule) : Prop := Specificity.lexLe a.1 b.1

instance : DecidableRel matchedRuleLe := fun a b => by
  unfold matchedRuleLe; infer_instance

/-- `specified_values` from `style.rs`: match, stable-sort by specificity
ascending (Rust's `sort_by` is stable; `List.insertionSort` is the stable
sort available here), then insert every declaration in order. -/
def specified_values (elem : ElementData) (stylesheet : Stylesheet) : PropertyMap :=
  let rules := (matching_rules elem stylesheet).insertionSort matchedRuleLe
  rules.foldl
    (fun values sr =>
      sr.2.declarations.foldl
        (fun values declaration => values.insert declaration.name declaration.value)
        values)
    PropertyMap.empty

mutual

/-- `style_tree` from `style.rs`: elements get their cascade-resolved
map, text nodes an empty one, and the children are styled in document
order. -/
def style_tree (root : Node) (stylesheet : Stylesheet) : StyledNode :=
  match root with
  | .mk children node_type =>
    .mk (.mk children node_type)
      (match node_type with
       | .Element elem => specified_values elem stylesheet
       | .Text _ => PropertyMap.empty)
      (style_tree_list children stylesheet)

/-- The `root.children.iter().map(|child| style_tree(child, stylesheet)).collect()`
of `style_tree`, as explicit list recursion. -/
def style_tree_list (children : List Node) (stylesheet : Stylesheet) :
    List StyledNode :=
  match children with
  | [] => []
  | c :: rest => style_tree c stylesheet :: style_tree_list rest stylesheet

end


/-! ### layout.rs -/

/-- `EdgeSizes` from `layout.rs`. -/
structure EdgeSizes where
  left : ℚ
  right : ℚ
  top : ℚ
  bottom : ℚ
  deriving DecidableEq

/-- `Default::default()` for `EdgeSizes`: all fields 0. -/
def EdgeSizes.default : EdgeSizes := ⟨0, 0, 0, 0⟩

/-- `Dimensions` from `layout.rs`. -/
structure Dimensions where
  x : ℚ
  y : ℚ
  width : ℚ
  height : ℚ
  padding : EdgeSizes
  border : EdgeSizes
  margin : EdgeSizes
  deriving DecidableEq

/-- `Default::default()` for `Dimensions`: all fields 0. -/
def Dimensions.default : Dimensions :=
  ⟨0, 0, 0, 0, EdgeSizes.default, EdgeSizes.default, EdgeSizes.default⟩

/-- `BoxType` from `layout.rs`. -/
inductive BoxType where
  | BlockNode (node : StyledNode)
  | InlineNode (node : StyledNode)
  | AnonymousBlock

/-- `LayoutBox` from `layout.rs`. -/
inductive LayoutBox where
  | mk (dimensions : Dimensions) (box_type : BoxType) (children : List LayoutBox)

/-- The `dimensions` field of a layout box. -/
def LayoutBox.dimensions : LayoutBox → Dimensions
  | .mk d _ _ => d

/-- The `box_type` field of a layout box. -/
def LayoutBox.box_type : LayoutBox → BoxType
  | .mk _ t _ => t

/-- The `children` field of a layout box. -/
def LayoutBox.children : LayoutBox → List LayoutBox
  | .mk _ _ c => c

/-- `LayoutBox::new`: all dimension fields initially 0, no children. -/
def LayoutBox.new (box_type : BoxType) : LayoutBox :=
  .mk Dimensions.default box_type []

/-- `Dimensions::margin_box_height` from `layout.rs`, verbatim: note that
it adds `padding.top + padding.bottom` twice, `border.top + border.bottom`
once, and never adds the margins. -/
def Dimensions.margin_box_height (d : Dimensions) : ℚ :=
  d.height + d.padding.top + d.padding.bottom
           + d.border.top + d.border.bottom
           + d.padding.top + d.padding.bottom

/-- `LayoutBox::get_style_node`; the `fail!` on an anonymous block is an
`Except.error`. -/
def LayoutBox.get_style_node (b : LayoutBox) : Except String StyledNode :=
  match b.box_type with
  | .BlockNode node => .ok node
  | .InlineNode node => .ok node
  | .AnonymousBlock => .error "Anonymous block box has no style node"

/-- `LayoutBox::calculate_block_width`.  The Rust method mutates
`self.dimensions`; here it returns the new `Dimensions` record.  The
property names, including the `"martin-right"` string, are verbatim from
the source. -/
def LayoutBox.calculate_block_width (b : LayoutBox) (containing_block : Dimensions) :
    Except String Dimensions :=
  match b.get_style_node with
  | .error e => .error e
  | .ok style =>
    let auto := Value.Keyword "auto"
    let width := (style.value "width").getD auto
    let zero := Value.Length 0 .Px
    let margin_left := style.lookup "margin-left" "margin" zero
    let margin_right := style.lookup "martin-right" "margin" zero
    let border_left := style.lookup "border-left-width" "border-width" zero
    let border_right := style.lookup "border-right-width" "border-width" zero
    let padding_left := style.lookup "padding-left" "padding" zero
    let padding_right := style.lookup "padding-right" "padding" zero
    let total := ([margin_left, margin_right, border_left, border_right,
                   padding_left, padding_right, width].map Value.to_px).sum
    -- If width is not auto and the total is wider than the container,
    -- treat auto margins as 0.
    let clamp := width ≠ auto ∧ total > containing_block.width
    let margin_left := if clamp ∧ margin_left = auto then zero else margin_left
    let margin_right := if clamp ∧ margin_right = auto then zero else margin_right
    let underflow := containing_block.width - total
    let result :=
      match decide (width = auto), decide (margin_left = auto),
            decide (margin_right = auto) with
      | false, false, false =>
        (width, margin_left, Value.Length (margin_right.to_px + underflow) .Px)
      | false, false, true =>
        (width, margin_left, Value.Length underflow .Px)
      | false, true, false =>
        (width, Value.Length underflow .Px, margin_right)
      | true, _, _ =>
        let margin_left := if margin_left = auto then Value.Length 0 .Px else margin_left
        let margin_right := if margin_right = auto then Value.Length 0 .Px else margin_right
        if underflow ≥ 0 then
          (Value.Length underflow .Px, margin_left, margin_right)
        else
          (Value.Length 0 .Px, margin_left,
           Value.Length (margin_right.to_px + underflow) .Px)
      | false, true, true =>
        (width, Value.Length (underflow / 2) .Px, Value.Length (underflow / 2) .Px)
    .ok { b.dimensions with
          width := result.1.to_px,
          padding := { b.dimensions.padding with
                       left := padding_left.to_px, right := padding_right.to_px },
          margin := { b.dimensions.margin with
                      left := result.2.1.to_px, right := result.2.2.to_px },
          border := { b.dimensions.border with
                      left := border_left.to_px, right := border_right.to_px } }

/-- `LayoutBox::calculate_block_height`: an explicit `height` length
overrides the accumulated height. -/
def LayoutBox.calculate_block_height (b : LayoutBox) : Except String Dimensions :=
  match b.get_style_node with
  | .error e => .error e
  | .ok style =>
    match style.value "height" with
    | some (.Length h .Px) => .ok { b.dimensions with height := h }
    | _ => .ok b.dimensions

/-- `LayoutBox::calculate_block_position`. -/
def LayoutBox.calculate_block_position (b : LayoutBox) (containing_block : Dimensions) :
    Except String Dimensions :=
  match b.get_style_node with
  | .error e => .error e
  | .ok style =>
    let zero := Value.Length 0 .Px
    let margin := { b.dimensions.margin with
                    top := (style.lookup "margin-top" "margin" zero).to_px,
                    bottom := (style.lookup "margin-bottom" "margin" zero).to_px }
    let border := { b.dimensions.border with
                    top := (style.lookup "border-top-width" "border-width" zero).to_px,
                    bottom := (style.lookup "border-bottom-width" "border-width" zero).to_px }
    let padding := { b.dimensions.padding with
                     top := (style.lookup "padding-top" "padding" zero).to_px,
                     bottom := (style.lookup "padding-bottom" "padding" zero).to_px }
    .ok { b.dimensions with
          margin := margin, border := border, padding := padding,
          x := containing_block.x + margin.left + border.left + padding.left,
          y := containing_block.y + containing_block.height +
               margin.top + border.top + padding.top }

mutual

/-- `LayoutBox::layout`: block boxes are laid out, inline and anonymous
boxes are a no-op (TODO in the source).  The source's `layout_block`
(width, then position, then children, then height, threading the mutated
`dimensions` through the steps) is inlined into the `BlockNode` arm so
that the mutual recursion with `layout_children` is structural. -/
def LayoutBox.layout (b : LayoutBox) (containing_block : Dimensions) :
    Except String LayoutBox :=
  match b with
  | .mk d t children =>
    match t with
    | .BlockNode _ =>
      match (LayoutBox.mk d t children).calculate_block_width containing_block with
      | .error e => .error e
      | .ok d1 =>
        match (LayoutBox.mk d1 t children).calculate_block_position
                containing_block with
        | .error e => .error e
        | .ok d2 =>
          match layout_children d2 children with
          | .error e => .error e
          | .ok (d3, children1) =>
            match (LayoutBox.mk d3 t children1).calculate_block_height with
            | .error e => .error e
            | .ok d4 => .ok (LayoutBox.mk d4 t children1)
    | .InlineNode _ => .ok (LayoutBox.mk d t children)
    | .AnonymousBlock => .ok (LayoutBox.mk d t children)

/-- `LayoutBox::layout_block_children`: each child is laid out against the
current dimensions, then its `margin_box_height` is added to the running
height so the next child is positioned below it. -/
def layout_children (d : Dimensions) :
    List LayoutBox → Except String (Dimensions × List LayoutBox)
  | [] => .ok (d, [])
  | child :: rest =>
    match child.layout d with
    | .error e => .error e
    | .ok child1 =>
      match layout_children
              { d with height := d.height + child1.dimensions.margin_box_height }
              rest with
      | .error e => .error e
      | .ok (dfinal, rest1) => .ok (dfinal, child1 :: rest1)

end

/-- `LayoutBox::get_inline_container` fused with the
`.children.push(build_layout_tree(child))` done at its call site: where a
new inline child goes. -/
def LayoutBox.push_child (b : LayoutBox) (c : LayoutBox) : LayoutBox :=
  .mk b.dimensions b.box_type (b.children ++ [c])

/-- `true` exactly for `AnonymousBlock`. -/
def BoxType.isAnonymous : BoxType → Bool
  | .AnonymousBlock => true
  | .BlockNode _ => false
  | .InlineNode _ => false

/-- `true` exactly for `InlineNode`. -/
def BoxType.isInline : BoxType → Bool
  | .InlineNode _ => true
  | .BlockNode _ => false
  | .AnonymousBlock => false

/-- `get_inline_container` followed by pushing `c` into the returned
container: an inline or anonymous box receives the child itself; a block
box reuses a trailing anonymous box when present and otherwise appends a
fresh one. -/
def LayoutBox.push_inline_child (b : LayoutBox) (c : LayoutBox) : LayoutBox :=
  match b.box_type with
  | .InlineNode _ => b.push_child c
  | .AnonymousBlock => b.push_child c
  | .BlockNode _ =>
    match b.children.getLast? with
    | some last =>
      if last.box_type.isAnonymous then
        .mk b.dimensions b.box_type (b.children.dropLast ++ [last.push_child c])
      else
        .mk b.dimensions b.box_type
          (b.children ++ [(LayoutBox.new .AnonymousBlock).push_child c])
    | none =>
      .mk b.dimensions b.box_type
        (b.children ++ [(LayoutBox.new .AnonymousBlock).push_child c])

mutual

/-- `build_layout_tree` from `layout.rs`; the `fail!` on a
`display: none` root is an `Except.error`.  The styled node is
destructured so that the recursion into its child list is structural. -/
def build_layout_tree (style_node : StyledNode) : Except String LayoutBox :=
  match style_node with
  | .mk n sv children =>
    match StyledNode.display (.mk n sv children) with
    | .DisplayNone => .error "Root node has display: none."
    | .Block =>
      build_children (LayoutBox.new (.BlockNode (.mk n sv children))) children
    | .Inline =>
      build_children (LayoutBox.new (.InlineNode (.mk n sv children))) children

/-- The `for child in style_node.children.iter()` loop of
`build_layout_tree`: block children are pushed directly, inline children
go through the inline container, `display: none` children are skipped. -/
def build_children (root : LayoutBox) :
    List StyledNode → Except String LayoutBox
  | [] => .ok root
  | child :: rest =>
    match child.display with
    | .Block =>
      match build_layout_tree child with
      | .error e => .error e
      | .ok cb => build_children (root.push_child cb) rest
    | .Inline =>
      match build_layout_tree child with
      | .error e => .error e
      | .ok cb => build_children (root.push_inline_child cb) rest
    | .DisplayNone => build_children root rest

end

/-- `layout_tree` from `layout.rs`. -/
def layout_tree (node : StyledNode) (containing_block : Dimensions) :
    Except String LayoutBox :=
  match build_layout_tree node with
  | .error e => .error e
  | .ok root_box => root_box.layout containing_block


/-! ### Unfolding lemmas for the structurally recursive functions -/

theorem layout_children_nil (d : Dimensions) : layout_children d [] = .ok (d, []) := rfl

theorem layout_children_cons (d : Dimensions) (child : LayoutBox) (rest : List LayoutBox) :
    layout_children d (child :: rest) =
      match child.layout d with
      | .error e => .error e
      | .ok child1 =>
        match layout_children
                { d with height := d.height + child1.dimensions.margin_box_height }
                rest with
        | .error e => .error e
        | .ok (dfinal, rest1) => .ok (dfinal, child1 :: rest1) := rfl

/-! ### Concrete inputs shared by the examples -/

/-- The hard-coded viewport of `main.rs`: 800×600 at the origin. -/
def initial_containing_block : Dimensions :=
  { Dimensions.default with width := 800, height := 600 }

/-- A property map with `width: 100px; margin-left: auto; margin-right: auto;`. -/
def hundredPxAutoMargins : PropertyMap :=
  ((PropertyMap.empty.insert "width" (.Length 100 .Px)).insert
    "margin-left" (.Keyword "auto")).insert "margin-right" (.Keyword "auto")

/-- A styled node carrying `hundredPxAutoMargins`. -/
def hundredPxAutoMarginsNode : StyledNode :=
  .mk (.mk [] (.Text "")) hundredPxAutoMargins []

/-- A fresh block box over `hundredPxAutoMarginsNode`. -/
def hundredPxAutoMarginsBox : LayoutBox :=
  .mk Dimensions.default (.BlockNode hundredPxAutoMarginsNode) []

/-! ### C1 -/

/-- C1: the claim says that with `width:100px; margin-left:auto;
margin-right:auto` against a containing block of content width 800,
`calculate_block_width` resolves both margins to 350px.  It does not:
`calculate_block_width` reads the right margin through the misspelled
property name `"martin-right"` (falling back to `"margin"`, then to
length 0), so the specified `margin-right: auto` is never seen, the
`(width fixed, both margins auto)` branch is not taken, and the whole
underflow of 700px goes to `margin-left` while `margin-right` stays 0. -/
theorem calculate_block_width_martin_right_typo :
    hundredPxAutoMarginsBox.calculate_block_width initial_containing_block =
      .ok { Dimensions.default with
            width := 100,
            margin := { EdgeSizes.default with left := 700, right := 0 } } := by
  simp [LayoutBox.calculate_block_width, LayoutBox.get_style_node,
    LayoutBox.box_type, LayoutBox.dimensions, hundredPxAutoMarginsBox,
    hundredPxAutoMarginsNode, hundredPxAutoMargins, initial_containing_block,
    Dimensions.default, EdgeSizes.default, StyledNode.value, StyledNode.lookup,
    StyledNode.specified_values, PropertyMap.find, PropertyMap.insert,
    PropertyMap.empty, Value.to_px]
  norm_num

/-! ### C2 -/

/-- A dimensions record whose only non-zero field is a 5px top border. -/
def fivePxTopBorder : Dimensions :=
  { Dimensions.default with border := { EdgeSizes.default with top := 5 } }

/-- C2 counterexample: the claim says a child's contribution to the
parent's running height is its content height plus top/bottom padding
counted twice with margin and border omitted entirely; but
`margin_box_height` adds `border.top + border.bottom` once, so a box
with a 5px top border contributes 5, not 0. -/
theorem margin_box_height_includes_border :
    fivePxTopBorder.margin_box_height ≠
      fivePxTopBorder.height +
        2 * (fivePxTopBorder.padding.top + fivePxTopBorder.padding.bottom) := by
  norm_num [Dimensions.margin_box_height, fivePxTopBorder, Dimensions.default,
    EdgeSizes.default]

/-- C2 (amended): during `layout_children`, each child's contribution to
the running height is its content height, plus top and bottom padding
counted twice, plus top and bottom border counted once, with the margins
omitted entirely; the accumulated height is what the remaining siblings
are laid out against. -/
theorem layout_children_height_accumulation (d : Dimensions) (child : LayoutBox)
    (rest : List LayoutBox) (child1 : LayoutBox)
    (h : child.layout d = .ok child1) :
    layout_children d (child :: rest) =
      Except.map (fun p => (p.1, child1 :: p.2))
        (layout_children
          { d with height := d.height +
              (child1.dimensions.height
                + 2 * (child1.dimensions.padding.top + child1.dimensions.padding.bottom)
                + (child1.dimensions.border.top + child1.dimensions.border.bottom)) }
          rest) := by
  rw [layout_children_cons, h]
  show (match layout_children
          { d with height := d.height + child1.dimensions.margin_box_height }
          rest with
        | Except.error e => (Except.error e : Except String (Dimensions × List LayoutBox))
        | Except.ok (dfinal, rest1) => Except.ok (dfinal, child1 :: rest1)) = _
  have hh : d.height + child1.dimensions.margin_box_height =
      d.height +
        (child1.dimensions.height
          + 2 * (child1.dimensions.padding.top + child1.dimensions.padding.bottom)
          + (child1.dimensions.border.top + child1.dimensions.border.bottom)) := by
    unfold Dimensions.margin_box_height; ring
  rw [hh]
  cases hres : layout_children
      { d with height := d.height +
          (child1.dimensions.height
            + 2 * (child1.dimensions.padding.top + child1.dimensions.padding.bottom)
            + (child1.dimensions.border.top + child1.dimensions.border.bottom)) }
      rest with
  | error e => simp [Except.map]
  | ok p => simp [Except.map]

/-- A parent dimensions record with height 50. -/
def parentAt50 : Dimensions := { Dimensions.default with height := 50 }

/-- An anonymous box with content height 10, padding 1/2, border 3/4 and
margin 100/200 on the vertical axis; its layout is a no-op. -/
def anonChildBox : LayoutBox :=
  .mk { Dimensions.default with
        height := 10,
        padding := { EdgeSizes.default with top := 1, bottom := 2 },
        border := { EdgeSizes.default with top := 3, bottom := 4 },
        margin := { EdgeSizes.default with top := 100, bottom := 200 } }
    .AnonymousBlock []

/-- Witness for C2 (amended) at a concrete child: the hypothesis holds by
computation and the accumulation law follows by the theorem. -/
theorem layout_children_height_accumulation_witness :
    anonChildBox.layout parentAt50 = .ok anonChildBox ∧
    layout_children parentAt50 [anonChildBox] =
      Except.map (fun p => (p.1, anonChildBox :: p.2))
        (layout_children
          { parentAt50 with height := parentAt50.height +
              (anonChildBox.dimensions.height
                + 2 * (anonChildBox.dimensions.padding.top
                        + anonChildBox.dimensions.padding.bottom)
                + (anonChildBox.dimensions.border.top
                    + anonChildBox.dimensions.border.bottom)) }
          []) :=
  ⟨rfl, layout_children_height_accumulation parentAt50 anonChildBox [] anonChildBox rfl⟩

/-! ### C10 -/

/-- C10: `calculate_block_width` writes only the content width and the
left/right fields of padding, border and margin; `x`, `y`, the content
height and every top/bottom edge size are returned unchanged. -/
theorem calculate_block_width_frame (style : StyledNode) (dims : Dimensions)
    (ch : List LayoutBox) (cb : Dimensions) :
    ∃ w pl pr bl br ml mr,
      (LayoutBox.mk dims (.BlockNode style) ch).calculate_block_width cb =
        .ok { dims with
              width := w,
              padding := { dims.padding with left := pl, right := pr },
              margin := { dims.margin with left := ml, right := mr },
              border := { dims.border with left := bl, right := br } } :=
  ⟨_, _, _, _, _, _, _, rfl⟩


/-! ### C3 -/

/-- C3: `match_rule` pairs a rule with the specificity of the first
selector in the rule's selector list that matches the element; selectors
after that first match never contribute, whatever their specificity. -/
theorem match_rule_uses_first_matching_selector (elem : ElementData)
    (l1 l2 : List Selector) (s : Selector) (ds : List Declaration)
    (h1 : ∀ t ∈ l1, matches' elem t = false)
    (h2 : matches' elem s = true) :
    match_rule elem ⟨l1 ++ s :: l2, ds⟩ =
      some (s.specificity, ⟨l1 ++ s :: l2, ds⟩) := by
  unfold match_rule
  have hnone : l1.find? (fun selector => matches' elem selector) = none :=
    List.find?_eq_none.mpr (by intro x hx; simp [h1 x hx])
  have hfind : ((⟨l1 ++ s :: l2, ds⟩ : Rule).selectors).find?
      (fun selector => matches' elem selector) = some s := by
    show ((l1 ++ s :: l2).find? fun selector => matches' elem selector) = some s
    rw [List.find?_append, hnone, Option.none_or, List.find?_cons_of_pos _ h2]
  rw [hfind]; rfl

/-- An element `<div id="x">`. -/
def divWithIdX : ElementData := ⟨"div", [("id", "x")]⟩

/-- The selector `div`, specificity (0, 0, 1). -/
def tagDivSelector : Selector := .Simple ⟨some "div", none, []⟩

/-- The selector `#x`, specificity (1, 0, 0). -/
def idXSelector : Selector := .Simple ⟨none, some "x", []⟩

/-- Witness for C3: against `<div id="x">`, a rule listing `div` before
`#x` is paired with specificity (0, 0, 1) — the higher-specificity `#x`
also matches but comes later and is ignored. -/
theorem match_rule_uses_first_matching_selector_witness :
    (∀ t ∈ ([] : List Selector), matches' divWithIdX t = false) ∧
    matches' divWithIdX tagDivSelector = true ∧
    matches' divWithIdX idXSelector = true ∧
    tagDivSelector.specificity = (0, 0, 1) ∧
    idXSelector.specificity = (1, 0, 0) ∧
    match_rule divWithIdX ⟨[] ++ tagDivSelector :: [idXSelector], []⟩ =
      some (tagDivSelector.specificity, ⟨[] ++ tagDivSelector :: [idXSelector], []⟩) :=
  ⟨by simp, by decide, by decide, by decide, by decide,
    match_rule_uses_first_matching_selector divWithIdX [] [idXSelector]
      tagDivSelector [] (by simp) (by decide)⟩

/-! ### C5 -/

/-- The value of the last declaration for property `p` in a declaration
list, if any: a later insertion into the property map shadows an earlier
one for the same key. -/
def lastDeclValue (p : String) : List Declaration → Option Value
  | [] => none
  | d :: rest =>
    match lastDeclValue p rest with
    | some v => some v
    | none => if p = d.name then some d.value else none

/-- Folding `insert` over a declaration list realizes `lastDeclValue`:
the resulting map answers with the last declared value for `p`, and
otherwise falls through to the initial map. -/
theorem foldl_insert_find (decls : List Declaration) (m : PropertyMap) (p : String) :
    (decls.foldl (fun values declaration =>
        values.insert declaration.name declaration.value) m) p =
      match lastDeclValue p decls with
      | some v => some v
      | none => m p := by
  induction decls generalizing m with
  | nil => simp [lastDeclValue]
  | cons d rest ih =>
    rw [List.foldl_cons, ih]
    cases hl : lastDeclValue p rest with
    | some v => simp [lastDeclValue, hl]
    | none =>
      simp only [lastDeclValue, hl, PropertyMap.insert]
      by_cases hp : p = d.name <;> simp [hp]

/-- C5: with a stylesheet of two rules that both match the element with
equal specificity, the stable ascending sort keeps source order, so the
later rule's declarations are inserted last and decide any property both
rules set. -/
theorem specified_values_later_equal_specificity_rule_wins
    (elem : ElementData) (r1 r2 : Rule) (s : Specificity) (p : String) (v : Value)
    (h1 : match_rule elem r1 = some (s, r1))
    (h2 : match_rule elem r2 = some (s, r2))
    (hp : lastDeclValue p r2.declarations = some v) :
    specified_values elem ⟨[r1, r2]⟩ p = some v := by
  unfold specified_values
  have hm : matching_rules elem ⟨[r1, r2]⟩ = [(s, r1), (s, r2)] := by
    simp [matching_rules, h1, h2]
  rw [hm]
  have hle : matchedRuleLe (s, r1) (s, r2) := by
    show Specificity.lexLe s s
    unfold Specificity.lexLe
    omega
  have hsort : ([(s, r1), (s, r2)] : List MatchedRule).insertionSort matchedRuleLe
      = [(s, r1), (s, r2)] := by
    simp [List.insertionSort, List.orderedInsert, if_pos hle]
  rw [hsort, List.foldl_cons, List.foldl_cons, List.foldl_nil]
  rw [foldl_insert_find, hp]

/-- The element `<div>` with no attributes. -/
def divElement : ElementData := ⟨"div", []⟩

/-- The rule `div { color: red; }`. -/
def redRule : Rule := ⟨[tagDivSelector], [⟨"color", .Keyword "red"⟩]⟩

/-- The rule `div { color: blue; }`. -/
def blueRule : Rule := ⟨[tagDivSelector], [⟨"color", .Keyword "blue"⟩]⟩

/-- Witness for C5: both rules match `<div>` with specificity (0, 0, 1)
and both set `color`; the later rule's `blue` wins. -/
theorem specified_values_later_equal_specificity_rule_wins_witness :
    match_rule divElement redRule = some ((0, 0, 1), redRule) ∧
    match_rule divElement blueRule = some ((0, 0, 1), blueRule) ∧
    lastDeclValue "color" blueRule.declarations = some (.Keyword "blue") ∧
    specified_values divElement ⟨[redRule, blueRule]⟩ "color" =
      some (.Keyword "blue") :=
  ⟨by decide, by decide, by decide,
    specified_values_later_equal_specificity_rule_wins divElement redRule blueRule
      (0, 0, 1) "color" (.Keyword "blue") (by decide) (by decide) (by decide)⟩

/-! ### C6 -/

/-- C6: a styled root whose display resolves to `none` makes the whole
`layout_tree` call fail with the `build_layout_tree` error, rather than
return any layout tree. -/
theorem layout_tree_display_none_is_error (sn : StyledNode) (cb : Dimensions)
    (h : sn.display = .DisplayNone) :
    layout_tree sn cb = .error "Root node has display: none." := by
  unfold layout_tree
  cases sn with
  | mk n sv children => simp [build_layout_tree, h]

/-- A styled node with `display: none` and no children. -/
def displayNoneNode : StyledNode :=
  .mk (.mk [] (.Text "")) (PropertyMap.empty.insert "display" (.Keyword "none")) []

/-- Witness for C6 at a concrete root. -/
theorem layout_tree_display_none_is_error_witness :
    displayNoneNode.display = .DisplayNone ∧
    layout_tree displayNoneNode initial_containing_block =
      .error "Root node has display: none." :=
  ⟨by decide,
    layout_tree_display_none_is_error displayNoneNode initial_containing_block
      (by decide)⟩


/-! ### C4 -/

/-- The `width` read by `calculate_block_width` (initial value `auto`). -/
def widthValue (style : StyledNode) : Value :=
  (style.value "width").getD (Value.Keyword "auto")

/-- The `margin_left` read by `calculate_block_width`. -/
def marginLeftValue (style : StyledNode) : Value :=
  style.lookup "margin-left" "margin" (Value.Length 0 .Px)

/-- The `margin_right` read by `calculate_block_width` (through the
source's misspelled `"martin-right"`). -/
def marginRightValue (style : StyledNode) : Value :=
  style.lookup "martin-right" "margin" (Value.Length 0 .Px)

/-- The `border_left` read by `calculate_block_width`. -/
def borderLeftValue (style : StyledNode) : Value :=
  style.lookup "border-left-width" "border-width" (Value.Length 0 .Px)

/-- The `border_right` read by `calculate_block_width`. -/
def borderRightValue (style : StyledNode) : Value :=
  style.lookup "border-right-width" "border-width" (Value.Length 0 .Px)

/-- The `padding_left` read by `calculate_block_width`. -/
def paddingLeftValue (style : StyledNode) : Value :=
  style.lookup "padding-left" "padding" (Value.Length 0 .Px)

/-- The `padding_right` read by `calculate_block_width`. -/
def paddingRightValue (style : StyledNode) : Value :=
  style.lookup "padding-right" "padding" (Value.Length 0 .Px)

/-- The `total` of `calculate_block_width`: the pixel sum of the six edge
quantities plus width, `auto` counting as 0. -/
def totalValue (style : StyledNode) : ℚ :=
  ([marginLeftValue style, marginRightValue style, borderLeftValue style,
    borderRightValue style, paddingLeftValue style, paddingRightValue style,
    widthValue style].map Value.to_px).sum

/-- The `underflow` of `calculate_block_width`. -/
def underflowValue (style : StyledNode) (cb : Dimensions) : ℚ :=
  cb.width - totalValue style

/-- The `(width, margin_left, margin_right)` triple as resolved by the
branch analysis of `calculate_block_width`. -/
def resolvedWidthMargins (style : StyledNode) (cb : Dimensions) :
    Value × Value × Value :=
  let auto := Value.Keyword "auto"
  let clamp := widthValue style ≠ auto ∧ totalValue style > cb.width
  let margin_left :=
    if clamp ∧ marginLeftValue style = auto then Value.Length 0 .Px
    else marginLeftValue style
  let margin_right :=
    if clamp ∧ marginRightValue style = auto then Value.Length 0 .Px
    else marginRightValue style
  let underflow := underflowValue style cb
  match decide (widthValue style = auto), decide (margin_left = auto),
        decide (margin_right = auto) with
  | false, false, false =>
    (widthValue style, margin_left, Value.Length (margin_right.to_px + underflow) .Px)
  | false, false, true =>
    (widthValue style, margin_left, Value.Length underflow .Px)
  | false, true, false =>
    (widthValue style, Value.Length underflow .Px, margin_right)
  | true, _, _ =>
    let margin_left := if margin_left = auto then Value.Length 0 .Px else margin_left
    let margin_right := if margin_right = auto then Value.Length 0 .Px else margin_right
    if underflow ≥ 0 then
      (Value.Length underflow .Px, margin_left, margin_right)
    else
      (Value.Length 0 .Px, margin_left,
       Value.Length (margin_right.to_px + underflow) .Px)
  | false, true, true =>
    (widthValue style, Value.Length (underflow / 2) .Px,
     Value.Length (underflow / 2) .Px)

/-- `calculate_block_width` on a block box, restated through the named
intermediate quantities; both sides unfold to the same term. -/
theorem calculate_block_width_via_resolved (style : StyledNode)
    (dims : Dimensions) (ch : List LayoutBox) (cb : Dimensions) :
    (LayoutBox.mk dims (.BlockNode style) ch).calculate_block_width cb =
      .ok { dims with
            width := (resolvedWidthMargins style cb).1.to_px,
            padding := { dims.padding with
                         left := (paddingLeftValue style).to_px,
                         right := (paddingRightValue style).to_px },
            margin := { dims.margin with
                        left := (resolvedWidthMargins style cb).2.1.to_px,
                        right := (resolvedWidthMargins style cb).2.2.to_px },
            border := { dims.border with
                        left := (borderLeftValue style).to_px,
                        right := (borderRightValue style).to_px } } := rfl

/-- C4: when the width read by `calculate_block_width` resolves to the
keyword `auto`, auto margins become 0; a non-negative underflow becomes
the resolved width, and a negative underflow leaves width 0 and is added
to the right margin. -/
theorem calculate_block_width_width_auto (style : StyledNode) (dims : Dimensions)
    (ch : List LayoutBox) (cb : Dimensions)
    (hw : widthValue style = Value.Keyword "auto") :
    (LayoutBox.mk dims (.BlockNode style) ch).calculate_block_width cb =
      .ok { dims with
            width := if underflowValue style cb ≥ 0 then underflowValue style cb else 0,
            padding := { dims.padding with
                         left := (paddingLeftValue style).to_px,
                         right := (paddingRightValue style).to_px },
            margin := { dims.margin with
                        left := if marginLeftValue style = Value.Keyword "auto" then 0
                                else (marginLeftValue style).to_px,
                        right := (if marginRightValue style = Value.Keyword "auto" then 0
                                  else (marginRightValue style).to_px)
                                 + (if underflowValue style cb ≥ 0 then 0
                                    else underflowValue style cb) },
            border := { dims.border with
                        left := (borderLeftValue style).to_px,
                        right := (borderRightValue style).to_px } } := by
  rw [calculate_block_width_via_resolved]
  have hr : resolvedWidthMargins style cb =
      ((if underflowValue style cb ≥ 0
        then Value.Length (underflowValue style cb) .Px else Value.Length 0 .Px),
       (if marginLeftValue style = Value.Keyword "auto" then Value.Length 0 .Px
        else marginLeftValue style),
       (if underflowValue style cb ≥ 0
        then (if marginRightValue style = Value.Keyword "auto" then Value.Length 0 .Px
              else marginRightValue style)
        else Value.Length
              ((if marginRightValue style = Value.Keyword "auto" then Value.Length 0 .Px
                else marginRightValue style).to_px + underflowValue style cb) .Px)) := by
    unfold resolvedWidthMargins
    simp only [hw, ne_eq, not_true_eq_false, false_and, if_false, decide_True]
    by_cases hu : underflowValue style cb ≥ 0 <;> simp [hu]
  rw [hr]
  by_cases hu : underflowValue style cb ≥ 0 <;>
    by_cases hmr : marginRightValue style = Value.Keyword "auto" <;>
      by_cases hml : marginLeftValue style = Value.Keyword "auto" <;>
        simp [hu, hmr, hml, Value.to_px, apply_ite]

/-- A styled node with an empty property map. -/
def emptyStyleNode : StyledNode := .mk (.mk [] (.Text "")) PropertyMap.empty []

/-- Witness for C4 at the spec's example: width auto, zero margins,
border and padding, containing width 800 — the resolved width is 800. -/
theorem calculate_block_width_width_auto_witness :
    widthValue emptyStyleNode = Value.Keyword "auto" ∧
    (LayoutBox.mk Dimensions.default (.BlockNode emptyStyleNode) []).calculate_block_width
        initial_containing_block = .ok { Dimensions.default with width := 800 } := by
  constructor
  · rfl
  · rw [calculate_block_width_width_auto emptyStyleNode Dimensions.default []
        initial_containing_block rfl]
    simp [underflowValue, totalValue, marginLeftValue, marginRightValue,
      borderLeftValue, borderRightValue, paddingLeftValue, paddingRightValue,
      widthValue, StyledNode.lookup, StyledNode.value, StyledNode.specified_values,
      PropertyMap.find, PropertyMap.empty, emptyStyleNode, Value.to_px,
      initial_containing_block, Dimensions.default, EdgeSizes.default]


/-! ### C7 -/

/-- The bare shape of a tree: children only, no payload. -/
inductive TreeShape where
  | node (children : List TreeShape)

mutual

/-- The shape of a DOM tree. -/
def Node.shape : Node → TreeShape
  | .mk children _ => .node (Node.shapeList children)

/-- The shapes of a DOM forest, in order. -/
def Node.shapeList : List Node → List TreeShape
  | [] => []
  | c :: rest => Node.shape c :: Node.shapeList rest

end

mutual

/-- The shape of a styled tree. -/
def StyledNode.shape : StyledNode → TreeShape
  | .mk _ _ children => .node (StyledNode.shapeList children)

/-- The shapes of a styled forest, in order. -/
def StyledNode.shapeList : List StyledNode → List TreeShape
  | [] => []
  | c :: rest => StyledNode.shape c :: StyledNode.shapeList rest

end

mutual

/-- C7: `style_tree` produces a styled tree of exactly the same shape as
the document tree — one styled node per document node, with a child list
of identical length and order at every node. -/
theorem style_tree_preserves_shape :
    ∀ (root : Node) (stylesheet : Stylesheet),
      (style_tree root stylesheet).shape = root.shape
  | .mk children _, stylesheet =>
    congrArg TreeShape.node (style_tree_list_preserves_shape children stylesheet)

/-- The forest version of `style_tree_preserves_shape`. -/
theorem style_tree_list_preserves_shape :
    ∀ (children : List Node) (stylesheet : Stylesheet),
      StyledNode.shapeList (style_tree_list children stylesheet) =
        Node.shapeList children
  | [], _ => rfl
  | c :: rest, stylesheet => by
    show StyledNode.shape (style_tree c stylesheet) ::
        StyledNode.shapeList (style_tree_list rest stylesheet) =
      Node.shape c :: Node.shapeList rest
    rw [style_tree_preserves_shape c stylesheet,
      style_tree_list_preserves_shape rest stylesheet]

end


/-! ### C9 -/

/-- Unfolding `build_layout_tree` at a constructor. -/
theorem build_layout_tree_mk (n : Node) (sv : PropertyMap) (children : List StyledNode) :
    build_layout_tree (.mk n sv children) =
      match StyledNode.display (.mk n sv children) with
      | .DisplayNone => .error "Root node has display: none."
      | .Block =>
        build_children (LayoutBox.new (.BlockNode (.mk n sv children))) children
      | .Inline =>
        build_children (LayoutBox.new (.InlineNode (.mk n sv children))) children := rfl

/-- Unfolding `build_children` at the empty list. -/
theorem build_children_nil (root : LayoutBox) : build_children root [] = .ok root := rfl

/-- Unfolding `build_children` at a cons. -/
theorem build_children_cons (root : LayoutBox) (child : StyledNode)
    (rest : List StyledNode) :
    build_children root (child :: rest) =
      match child.display with
      | .Block =>
        match build_layout_tree child with
        | .error e => .error e
        | .ok cb => build_children (root.push_child cb) rest
      | .Inline =>
        match build_layout_tree child with
        | .error e => .error e
        | .ok cb => build_children (root.push_inline_child cb) rest
      | .DisplayNone => build_children root rest := rfl

/-- Unfolding `LayoutBox.layout` on a block box. -/
theorem layout_block_node_unfold (d : Dimensions) (n : StyledNode)
    (children : List LayoutBox) (cb : Dimensions) :
    LayoutBox.layout (.mk d (.BlockNode n) children) cb =
      match (LayoutBox.mk d (.BlockNode n) children).calculate_block_width cb with
      | .error e => .error e
      | .ok d1 =>
        match (LayoutBox.mk d1 (.BlockNode n) children).calculate_block_position cb with
        | .error e => .error e
        | .ok d2 =>
          match layout_children d2 children with
          | .error e => .error e
          | .ok (d3, children1) =>
            match (LayoutBox.mk d3 (.BlockNode n) children1).calculate_block_height with
            | .error e => .error e
            | .ok d4 => .ok (LayoutBox.mk d4 (.BlockNode n) children1) := rfl

/-- `layout` is the identity on inline boxes. -/
theorem layout_inline_node (d : Dimensions) (n : StyledNode)
    (children : List LayoutBox) (cb : Dimensions) :
    LayoutBox.layout (.mk d (.InlineNode n) children) cb =
      .ok (.mk d (.InlineNode n) children) := rfl

/-- `layout` is the identity on anonymous boxes. -/
theorem layout_anonymous (d : Dimensions) (children : List LayoutBox) (cb : Dimensions) :
    LayoutBox.layout (.mk d .AnonymousBlock children) cb =
      .ok (.mk d .AnonymousBlock children) := rfl

/-- `calculate_block_width` succeeds on every box that carries a style
node (its `get_style_node` cannot fail). -/
theorem calculate_block_width_isOk (d : Dimensions) (n : StyledNode)
    (ch : List LayoutBox) (cb : Dimensions) :
    ∃ dd, (LayoutBox.mk d (.BlockNode n) ch).calculate_block_width cb = .ok dd :=
  ⟨_, rfl⟩

/-- `calculate_block_position` succeeds on every box that carries a style
node. -/
theorem calculate_block_position_isOk (d : Dimensions) (n : StyledNode)
    (ch : List LayoutBox) (cb : Dimensions) :
    ∃ dd, (LayoutBox.mk d (.BlockNode n) ch).calculate_block_position cb = .ok dd :=
  ⟨_, rfl⟩

/-- `calculate_block_height` succeeds on every box that carries a style
node. -/
theorem calculate_block_height_isOk (d : Dimensions) (n : StyledNode)
    (ch : List LayoutBox) :
    ∃ dd, (LayoutBox.mk d (.BlockNode n) ch).calculate_block_height = .ok dd := by
  rcases hv : StyledNode.value n "height" with _ | v
  · exact ⟨d, by simp [LayoutBox.calculate_block_height, LayoutBox.get_style_node,
      LayoutBox.box_type, LayoutBox.dimensions, hv]⟩
  · rcases v with w | ⟨r, g, bb, a⟩ | ⟨f, u⟩
    · exact ⟨d, by simp [LayoutBox.calculate_block_height, LayoutBox.get_style_node,
        LayoutBox.box_type, LayoutBox.dimensions, hv]⟩
    · exact ⟨d, by simp [LayoutBox.calculate_block_height, LayoutBox.get_style_node,
        LayoutBox.box_type, LayoutBox.dimensions, hv]⟩
    · cases u
      exact ⟨{ d with height := f }, by simp [LayoutBox.calculate_block_height,
        LayoutBox.get_style_node, LayoutBox.box_type, LayoutBox.dimensions, hv]⟩

mutual

/-- `layout` never fails: the only failing accessor, `get_style_node`, is
reached only from the block arm, whose box type carries a style node, and
the inline and anonymous arms do not touch styles at all. -/
theorem layout_isOk : ∀ (b : LayoutBox) (cb : Dimensions), (b.layout cb).isOk = true
  | .mk d (.BlockNode n) children, cb => by
    rw [layout_block_node_unfold]
    obtain ⟨d1, h1⟩ := calculate_block_width_isOk d n children cb
    simp only [h1]
    obtain ⟨d2, h2⟩ := calculate_block_position_isOk d1 n children cb
    simp only [h2]
    have hlc := layout_children_isOk d2 children
    rcases hres : layout_children d2 children with e | ⟨d3, children1⟩
    · rw [hres] at hlc; simp [Except.isOk, Except.toBool] at hlc
    · simp only [hres]
      obtain ⟨d4, h4⟩ := calculate_block_height_isOk d3 n children1
      simp only [h4]
      rfl
  | .mk d (.InlineNode n) children, cb => by rw [layout_inline_node]; rfl
  | .mk d .AnonymousBlock children, cb => by rw [layout_anonymous]; rfl

/-- `layout_children` never fails. -/
theorem layout_children_isOk :
    ∀ (d : Dimensions) (l : List LayoutBox), (layout_children d l).isOk = true
  | _, [] => rfl
  | d, child :: rest => by
    rw [layout_children_cons]
    have hc := layout_isOk child d
    rcases hres : child.layout d with e | child1
    · rw [hres] at hc; simp [Except.isOk, Except.toBool] at hc
    · simp only [hres]
      have hr := layout_children_isOk
        { d with height := d.height + child1.dimensions.margin_box_height } rest
      rcases hrec : layout_children
          { d with height := d.height + child1.dimensions.margin_box_height } rest
        with e | ⟨dfinal, rest1⟩
      · rw [hrec] at hr; simp [Except.isOk, Except.toBool] at hr
      · simp only [hrec]; rfl

end

mutual

/-- `build_layout_tree` succeeds whenever the root's display is not
`none`. -/
theorem build_layout_tree_ok :
    ∀ (sn : StyledNode), sn.display ≠ .DisplayNone →
      ∃ b, build_layout_tree sn = .ok b
  | .mk n sv children => fun h => by
    rw [build_layout_tree_mk]
    rcases hd : StyledNode.display (.mk n sv children) with _ | _ | _
    · exact build_children_ok children _
    · exact build_children_ok children _
    · exact absurd hd h

/-- `build_children` always succeeds: it only recurses into children whose
display is `block` or `inline`, so the recursive `build_layout_tree` calls
cannot hit the `display: none` failure. -/
theorem build_children_ok :
    ∀ (l : List StyledNode) (root : LayoutBox),
      ∃ r, build_children root l = .ok r
  | [], root => ⟨root, rfl⟩
  | child :: rest, root => by
    rw [build_children_cons]
    rcases hd : child.display with _ | _ | _
    · obtain ⟨cb, hcb⟩ := build_layout_tree_ok child (by rw [hd]; simp)
      simp only [hcb]
      exact build_children_ok rest (root.push_inline_child cb)
    · obtain ⟨cb, hcb⟩ := build_layout_tree_ok child (by rw [hd]; simp)
      simp only [hcb]
      exact build_children_ok rest (root.push_child cb)
    · exact build_children_ok rest root

end

/-- C9: for a styled root whose display is not `none`, the whole
`layout_tree` call completes without reaching the
"Anonymous block box has no style node" failure (or any other failure):
`get_style_node` is only invoked while laying out a block box, whose box
type carries a style node, and the layout of inline and anonymous boxes
performs no style access. -/
theorem layout_tree_total (sn : StyledNode) (cb : Dimensions)
    (h : sn.display ≠ .DisplayNone) :
    (layout_tree sn cb).isOk = true := by
  obtain ⟨b, hb⟩ := build_layout_tree_ok sn h
  unfold layout_tree
  rw [hb]
  exact layout_isOk b cb

/-- Witness for C9: an inline-display root (the default for an empty
property map) lays out successfully. -/
theorem layout_tree_total_witness :
    emptyStyleNode.display ≠ .DisplayNone ∧
    (layout_tree emptyStyleNode initial_containing_block).isOk = true :=
  ⟨by decide,
    layout_tree_total emptyStyleNode initial_containing_block (by decide)⟩


/-! ### C8 -/

/-- No two adjacent anonymous boxes in a child list. -/
def noAdjacentAnonymous : List LayoutBox → Bool
  | [] => true
  | [_] => true
  | a :: b :: rest =>
    (!(a.box_type.isAnonymous && b.box_type.isAnonymous)) &&
      noAdjacentAnonymous (b :: rest)

mutual

/-- The inline-container invariant of the layout tree: in every box no
two adjacent children are anonymous, and every anonymous box holds only
inline-level children. -/
def LayoutBox.wellFormed : LayoutBox → Bool
  | .mk _ t children =>
    noAdjacentAnonymous children &&
    (!t.isAnonymous || children.all fun x => x.box_type.isInline) &&
    wellFormedList children

/-- `wellFormed` over a forest. -/
def wellFormedList : List LayoutBox → Bool
  | [] => true
  | c :: rest => c.wellFormed && wellFormedList rest

end

/-- Unfolding `wellFormed` at a constructor. -/
theorem wellFormed_mk (d : Dimensions) (t : BoxType) (children : List LayoutBox) :
    (LayoutBox.mk d t children).wellFormed =
      (noAdjacentAnonymous children &&
       (!t.isAnonymous || children.all fun x => x.box_type.isInline) &&
       wellFormedList children) := rfl

/-- Inline boxes are not anonymous. -/
theorem isInline_not_anonymous {t : BoxType} (h : t.isInline = true) :
    t.isAnonymous = false := by
  cases t <;> simp_all [BoxType.isInline, BoxType.isAnonymous]

/-- `push_child` does not change the box type. -/
theorem push_child_box_type (b c : LayoutBox) :
    (b.push_child c).box_type = b.box_type := rfl

/-- Unfolding `push_inline_child` on a block box. -/
theorem push_inline_child_block (d : Dimensions) (n : StyledNode)
    (ch : List LayoutBox) (c : LayoutBox) :
    (LayoutBox.mk d (.BlockNode n) ch).push_inline_child c =
      match ch.getLast? with
      | some last =>
        if last.box_type.isAnonymous then
          .mk d (.BlockNode n) (ch.dropLast ++ [last.push_child c])
        else
          .mk d (.BlockNode n) (ch ++ [(LayoutBox.new .AnonymousBlock).push_child c])
      | none =>
        .mk d (.BlockNode n) (ch ++ [(LayoutBox.new .AnonymousBlock).push_child c]) := rfl

/-- `push_inline_child` does not change the box type. -/
theorem push_inline_child_box_type (b c : LayoutBox) :
    (b.push_inline_child c).box_type = b.box_type := by
  rcases b with ⟨d, t, ch⟩
  cases t with
  | InlineNode n => rfl
  | AnonymousBlock => rfl
  | BlockNode n =>
    rw [push_inline_child_block]
    rcases hl : ch.getLast? with _ | last
    · rfl
    · by_cases hanon : last.box_type.isAnonymous = true
      · simp only [hanon]; rfl
      · simp only [Bool.not_eq_true] at hanon
        simp only [hanon]; rfl

/-- Appending a box keeps the no-adjacent-anonymous property as long as
it does not land an anonymous box next to an anonymous last child. -/
theorem noAdjacentAnonymous_append :
    ∀ (l : List LayoutBox) (y : LayoutBox),
      noAdjacentAnonymous l = true →
      (∀ x, l.getLast? = some x →
        (x.box_type.isAnonymous && y.box_type.isAnonymous) = false) →
      noAdjacentAnonymous (l ++ [y]) = true
  | [], y, _, _ => rfl
  | [a], y, _, hlast => by
    have ha := hlast a rfl
    simp [noAdjacentAnonymous, ha]
  | a :: b :: rest, y, h, hlast => by
    simp only [noAdjacentAnonymous, Bool.and_eq_true] at h
    have htail := noAdjacentAnonymous_append (b :: rest) y h.2
      (fun x hx => hlast x (by rw [List.getLast?_cons_cons]; exact hx))
    simp only [List.cons_append, noAdjacentAnonymous, Bool.and_eq_true]
    exact ⟨h.1, by simpa [List.cons_append] using htail⟩

/-- Replacing the last box by one with the same anonymity keeps the
no-adjacent-anonymous property. -/
theorem noAdjacentAnonymous_replace_last :
    ∀ (l1 : List LayoutBox) (x y : LayoutBox),
      noAdjacentAnonymous (l1 ++ [x]) = true →
      y.box_type.isAnonymous = x.box_type.isAnonymous →
      noAdjacentAnonymous (l1 ++ [y]) = true
  | [], x, y, _, _ => rfl
  | [a], x, y, h, hsame => by
    simp only [List.cons_append, List.nil_append, noAdjacentAnonymous,
      Bool.and_eq_true] at h ⊢
    exact ⟨by rw [hsame]; exact h.1, trivial⟩
  | a :: b :: rest, x, y, h, hsame => by
    simp only [List.cons_append, noAdjacentAnonymous, Bool.and_eq_true] at h
    have htail := noAdjacentAnonymous_replace_last (b :: rest) x y
      (by simpa [List.cons_append] using h.2) hsame
    simp only [List.cons_append, noAdjacentAnonymous, Bool.and_eq_true]
    exact ⟨h.1, by simpa [List.cons_append] using htail⟩

/-- Appending a well-formed box to a well-formed forest. -/
theorem wellFormedList_append :
    ∀ (l : List LayoutBox) (c : LayoutBox),
      wellFormedList l = true → c.wellFormed = true →
      wellFormedList (l ++ [c]) = true
  | [], c, _, hc => by simp [wellFormedList, hc]
  | a :: rest, c, h, hc => by
    simp only [wellFormedList, Bool.and_eq_true] at h
    simp only [List.cons_append, wellFormedList, Bool.and_eq_true]
    exact ⟨h.1, wellFormedList_append rest c h.2 hc⟩

/-- Splitting a well-formed forest at its last element. -/
theorem wellFormedList_append_split :
    ∀ (l : List LayoutBox) (x : LayoutBox),
      wellFormedList (l ++ [x]) = true →
      wellFormedList l = true ∧ x.wellFormed = true
  | [], x, h => ⟨rfl, by simpa [wellFormedList] using h⟩
  | a :: rest, x, h => by
    simp only [List.cons_append, wellFormedList, Bool.and_eq_true] at h
    obtain ⟨h1, h2⟩ := h
    obtain ⟨h3, h4⟩ := wellFormedList_append_split rest x h2
    exact ⟨by simp [wellFormedList, h1, h3], h4⟩

/-- `push_child` keeps a box well formed when the pushed box is well
formed, not anonymous, and inline in case the receiver is anonymous. -/
theorem push_child_wellFormed (b c : LayoutBox)
    (hb : b.wellFormed = true) (hc : c.wellFormed = true)
    (hca : c.box_type.isAnonymous = false)
    (hmix : b.box_type.isAnonymous = true → c.box_type.isInline = true) :
    (b.push_child c).wellFormed = true := by
  rcases b with ⟨d, t, ch⟩
  rw [wellFormed_mk, Bool.and_eq_true, Bool.and_eq_true] at hb
  obtain ⟨⟨hadj, hanon⟩, hlist⟩ := hb
  show (LayoutBox.mk d t (ch ++ [c])).wellFormed = true
  rw [wellFormed_mk, Bool.and_eq_true, Bool.and_eq_true]
  refine ⟨⟨noAdjacentAnonymous_append ch c hadj (fun x _ => by simp [hca]),
    ?_⟩, wellFormedList_append ch c hlist hc⟩
  by_cases ht : t.isAnonymous = true
  · have hall : (ch.all fun x => x.box_type.isInline) = true := by
      simpa [ht] using hanon
    have hci : c.box_type.isInline = true := hmix ht
    simp [ht, List.all_append, hall, hci]
  · simp only [Bool.not_eq_true] at ht
    simp [ht]

/-- The anonymous box freshly created by `push_inline_child`, already
holding its first inline child, is well formed. -/
theorem fresh_anonymous_wellFormed (c : LayoutBox)
    (hc : c.wellFormed = true) (hci : c.box_type.isInline = true) :
    ((LayoutBox.new .AnonymousBlock).push_child c).wellFormed = true := by
  rw [show (LayoutBox.new .AnonymousBlock).push_child c =
        .mk Dimensions.default .AnonymousBlock [c] from rfl, wellFormed_mk]
  simp [noAdjacentAnonymous, wellFormedList, BoxType.isAnonymous, hc, hci]

/-- `push_inline_child` keeps a box well formed when the pushed box is
well formed and inline-level. -/
theorem push_inline_child_wellFormed (b c : LayoutBox)
    (hb : b.wellFormed = true) (hc : c.wellFormed = true)
    (hci : c.box_type.isInline = true) :
    (b.push_inline_child c).wellFormed = true := by
  have hca : c.box_type.isAnonymous = false := isInline_not_anonymous hci
  rcases b with ⟨d, t, ch⟩
  cases t with
  | InlineNode n =>
    exact push_child_wellFormed _ c hb hc hca
      (by intro hcontra; simp [LayoutBox.box_type, BoxType.isAnonymous] at hcontra)
  | AnonymousBlock => exact push_child_wellFormed _ c hb hc hca (fun _ => hci)
  | BlockNode n =>
    rw [wellFormed_mk, Bool.and_eq_true, Bool.and_eq_true] at hb
    obtain ⟨⟨hadj, _⟩, hlist⟩ := hb
    rw [push_inline_child_block]
    rcases hl : ch.getLast? with _ | last
    · have hch : ch = [] := List.getLast?_eq_none_iff.mp hl
      subst hch
      rw [wellFormed_mk, Bool.and_eq_true, Bool.and_eq_true]
      refine ⟨⟨rfl, by simp [BoxType.isAnonymous]⟩, ?_⟩
      simp [wellFormedList, fresh_anonymous_wellFormed c hc hci]
    · have hdec : ch.dropLast ++ [last] = ch := List.dropLast_append_getLast? last hl
      show (if last.box_type.isAnonymous = true then
              LayoutBox.mk d (.BlockNode n) (ch.dropLast ++ [last.push_child c])
            else
              LayoutBox.mk d (.BlockNode n)
                (ch ++ [(LayoutBox.new .AnonymousBlock).push_child c])).wellFormed = true
      by_cases hanon : last.box_type.isAnonymous = true
      · rw [if_pos hanon, wellFormed_mk, Bool.and_eq_true, Bool.and_eq_true]
        obtain ⟨hl1, hl2⟩ := wellFormedList_append_split ch.dropLast last
          (by rw [hdec]; exact hlist)
        refine ⟨⟨?_, by simp [BoxType.isAnonymous]⟩, ?_⟩
        · exact noAdjacentAnonymous_replace_last ch.dropLast last (last.push_child c)
            (by rw [hdec]; exact hadj) (by rw [push_child_box_type])
        · exact wellFormedList_append ch.dropLast (last.push_child c) hl1
            (push_child_wellFormed last c hl2 hc hca (fun _ => hci))
      · rw [if_neg hanon, wellFormed_mk, Bool.and_eq_true, Bool.and_eq_true]
        simp only [Bool.not_eq_true] at hanon
        refine ⟨⟨?_, by simp [BoxType.isAnonymous]⟩, ?_⟩
        · refine noAdjacentAnonymous_append ch _ hadj (fun x hx => ?_)
          rw [hl] at hx
          injection hx with hx
          subst hx
          simp [hanon]
        · exact wellFormedList_append ch _ hlist
            (fresh_anonymous_wellFormed c hc hci)

/-- `build_children` does not change the box type of the box it fills. -/
theorem build_children_box_type :
    ∀ (l : List StyledNode) (root r : LayoutBox),
      build_children root l = .ok r → r.box_type = root.box_type
  | [], root, r => fun hb => by
    rw [build_children_nil] at hb
    injection hb with h
    rw [← h]
  | child :: rest, root, r => fun hb => by
    rw [build_children_cons] at hb
    rcases hd : child.display with _ | _ | _
    · simp only [hd] at hb
      rcases hblt : build_layout_tree child with e | cb
      · rw [hblt] at hb; simp at hb
      · simp only [hblt] at hb
        rw [build_children_box_type rest _ r hb, push_inline_child_box_type]
    · simp only [hd] at hb
      rcases hblt : build_layout_tree child with e | cb
      · rw [hblt] at hb; simp at hb
      · simp only [hblt] at hb
        rw [build_children_box_type rest _ r hb, push_child_box_type]
    · simp only [hd] at hb
      exact build_children_box_type rest root r hb

/-- A box built from an inline-display styled node is an inline box. -/
theorem build_inline_box_type (sn : StyledNode) (b : LayoutBox)
    (hd : sn.display = .Inline) (hb : build_layout_tree sn = .ok b) :
    b.box_type.isInline = true := by
  rcases sn with ⟨n, sv, children⟩
  rw [build_layout_tree_mk] at hb
  simp only [hd] at hb
  rw [build_children_box_type children _ b hb]
  rfl

/-- A box built from a block-display styled node is a block box, hence
not anonymous. -/
theorem build_block_box_type (sn : StyledNode) (b : LayoutBox)
    (hd : sn.display = .Block) (hb : build_layout_tree sn = .ok b) :
    b.box_type.isAnonymous = false := by
  rcases sn with ⟨n, sv, children⟩
  rw [build_layout_tree_mk] at hb
  simp only [hd] at hb
  rw [build_children_box_type children _ b hb]
  rfl

mutual

/-- C8: every layout box produced by `build_layout_tree` satisfies the
inline-container invariant: a box never holds two adjacent anonymous
children (a block box reuses its trailing anonymous box for the next
inline child instead of appending a second one), and every anonymous box
holds only inline-level children. -/
theorem build_layout_tree_wellFormed :
    ∀ (sn : StyledNode) (b : LayoutBox),
      build_layout_tree sn = .ok b → b.wellFormed = true
  | .mk n sv children, b => fun hb => by
    rw [build_layout_tree_mk] at hb
    rcases hd : StyledNode.display (.mk n sv children) with _ | _ | _
    · simp only [hd] at hb
      exact build_children_wellFormed children
        (LayoutBox.new (.InlineNode (.mk n sv children))) b rfl rfl hb
    · simp only [hd] at hb
      exact build_children_wellFormed children
        (LayoutBox.new (.BlockNode (.mk n sv children))) b rfl rfl hb
    · simp only [hd] at hb
      simp at hb

/-- The loop invariant of `build_children`: starting from a well-formed
non-anonymous box, the filled box is well formed. -/
theorem build_children_wellFormed :
    ∀ (l : List StyledNode) (root r : LayoutBox),
      root.wellFormed = true → root.box_type.isAnonymous = false →
      build_children root l = .ok r → r.wellFormed = true
  | [], root, r => fun hwf _ hb => by
    rw [build_children_nil] at hb
    injection hb with h
    rw [← h]
    exact hwf
  | child :: rest, root, r => fun hwf hra hb => by
    rw [build_children_cons] at hb
    rcases hd : child.display with _ | _ | _
    · simp only [hd] at hb
      rcases hblt : build_layout_tree child with e | cb
      · rw [hblt] at hb; simp at hb
      · simp only [hblt] at hb
        have hcb := build_layout_tree_wellFormed child cb hblt
        have hci := build_inline_box_type child cb hd hblt
        exact build_children_wellFormed rest _ r
          (push_inline_child_wellFormed root cb hwf hcb hci)
          (by rw [push_inline_child_box_type]; exact hra) hb
    · simp only [hd] at hb
      rcases hblt : build_layout_tree child with e | cb
      · rw [hblt] at hb; simp at hb
      · simp only [hblt] at hb
        have hcb := build_layout_tree_wellFormed child cb hblt
        have hcba := build_block_box_type child cb hd hblt
        exact build_children_wellFormed rest _ r
          (push_child_wellFormed root cb hwf hcb hcba
            (fun hcontra => absurd hcontra (by simp [hra])))
          (by rw [push_child_box_type]; exact hra) hb
    · simp only [hd] at hb
      exact build_children_wellFormed rest root r hwf hra hb

end

/-- A block-display styled node with two inline children, a block child
and a further inline child. -/
def mixedStyledRoot : StyledNode :=
  .mk (.mk [] (.Text ""))
    (PropertyMap.empty.insert "display" (.Keyword "block"))
    [emptyStyleNode, emptyStyleNode,
     .mk (.mk [] (.Text "")) (PropertyMap.empty.insert "display" (.Keyword "block")) [],
     emptyStyleNode]

/-- Witness for C8 at the mixed tree: the hypothesis holds by computation
and the invariant follows from the theorem. -/
theorem build_layout_tree_wellFormed_witness :
    ∃ b, build_layout_tree mixedStyledRoot = .ok b ∧ b.wellFormed = true := by
  rcases hb : build_layout_tree mixedStyledRoot with e | b
  · obtain ⟨bb, hbb⟩ := build_layout_tree_ok mixedStyledRoot (by decide)
    rw [hbb] at hb
    simp at hb
  · exact ⟨b, rfl, build_layout_tree_wellFormed mixedStyledRoot b hb⟩

end Drawr
